import Mathlib

/-!
Verification of the talos governance kernel against its specification.

The development shallowly embeds the Python sources: pure functions become
Lean functions, in-place mutation becomes explicit state passing, machine
floats used as idealized timestamps become rationals, and fallible calls
return `Option` or `Except`.  The external RPN evaluator process is shipped
as a binary and is modelled from the specification's wire-protocol contract.
-/

namespace Talos

/-! ## Association lists: the embedding of Python dicts (insertion ordered) -/

def lookupA {α : Type} : List (String × α) → String → Option α
  | [], _ => none
  | (k, v) :: rest, key => if k = key then some v else lookupA rest key

/-- Python dict assignment: replace the value in place if the key exists,
otherwise append at the end (insertion order preserved). -/
def setA {α : Type} : List (String × α) → String → α → List (String × α)
  | [], key, v => [(key, v)]
  | (k, w) :: rest, key, v =>
    if k = key then (k, v) :: rest else (k, w) :: setA rest key v

/-! ## Characters and decimal printing/parsing

`natToStr` models Python `str` on non-negative ints; it is fuel-structured
so that it reduces inside the kernel. -/

def dquote : Char := Char.ofNat 34

def squote : Char := Char.ofNat 39

def digitChar (d : Nat) : Char := Char.ofNat (48 + d)

def natToDigitsAux (fuel n : Nat) : List Char :=
  match fuel with
  | 0 => []
  | fuel + 1 =>
    if n < 10 then [digitChar n]
    else natToDigitsAux fuel (n / 10) ++ [digitChar (n % 10)]

def natToStr (n : Nat) : List Char := natToDigitsAux (n + 1) n

def intToStr : Int → List Char
  | .ofNat n => natToStr n
  | .negSucc n => '-' :: natToStr (n + 1)

/-- The string the Python source produces with `str` on a non-negative int. -/
def strOfNat (n : Nat) : String := String.mk (natToStr n)

def parseDigit (c : Char) : Option Nat :=
  if 48 ≤ c.toNat ∧ c.toNat ≤ 57 then some (c.toNat - 48) else none

def parseNatAux : List Char → Nat → Option Nat
  | [], acc => some acc
  | c :: cs, acc =>
    match parseDigit c with
    | some d => parseNatAux cs (acc * 10 + d)
    | none => none

def parseNatTok : List Char → Option Nat
  | [] => none
  | l => parseNatAux l 0

def parseIntTok (t : List Char) : Option Int :=
  match t with
  | [] => none
  | c :: cs =>
    if c = '-' then (parseNatTok cs).map (fun n => -(n : Int))
    else (parseNatTok t).map (fun n => (n : Int))

/-! ## The external RPN evaluator (spec section 6)

Modelled from the spec: the evaluator binary (`rpn`) is not part of the
Python sources; per the spec it is a stack-based calculator over signed
integers whose boolean results are the decimal strings `1`/`0`, popping
the top of stack as the right operand, with comparisons `=` `<` `>`
yielding 1/0 and bitwise `&` `|` `~`; on malformed input or operand
starvation it signals failure, which the client maps to a denied boolean.
The subset modelled here covers every operator the repository's policy
registry uses. -/

def applyTok (t : List Char) (st : List Int) : Option (List Int) :=
  match parseIntTok t with
  | some v => some (v :: st)
  | none =>
    match t, st with
    | ['+'], a :: b :: rest => some ((b + a) :: rest)
    | ['*'], a :: b :: rest => some ((b * a) :: rest)
    | ['&'], a :: b :: rest => some (Int.land b a :: rest)
    | ['|'], a :: b :: rest => some (Int.lor b a :: rest)
    | ['~'], a :: rest => some (Int.not a :: rest)
    | ['='], a :: b :: rest => some ((if b = a then (1 : Int) else 0) :: rest)
    | ['<'], a :: b :: rest => some ((if b < a then (1 : Int) else 0) :: rest)
    | ['>'], a :: b :: rest => some ((if a < b then (1 : Int) else 0) :: rest)
    | _, _ => none

def evalTokens : List (List Char) → List Int → Option (List Int)
  | [], st => some st
  | t :: ts, st =>
    match applyTok t st with
    | some st2 => evalTokens ts st2
    | none => none

/-- Modelled from the spec: the evaluator answers one line holding the
decimal string of the result (top of stack); a failed evaluation produces
no result line, which the client reads as an empty/diagnostic string that
is not `1`. -/
def rpnRespond (r : Option (List Int)) : List Char :=
  match r with
  | some (v :: _) => intToStr v
  | _ => []

/-! ## governance.py: string templates, tokenizing, the policy engine -/

/-- One piece of a Python format string: a literal run or a named
placeholder.  The registry's template strings are embedded in this parsed
form; `pyFormat` is `str.format` with keyword arguments, failing (KeyError)
when a placeholder is missing from the context. -/
inductive TItem where
  | lit (s : String)
  | arg (v : String)

abbrev Template := List TItem

abbrev Context := List (String × String)

def pyFormat : Template → Context → Option (List Char)
  | [], _ => some []
  | TItem.lit s :: rest, ctx => (pyFormat rest ctx).map (fun l => s.data ++ l)
  | TItem.arg v :: rest, ctx =>
    match lookupA ctx v with
    | some val => (pyFormat rest ctx).map (fun l => val.data ++ l)
    | none => none

/-- Python `str.split()` with no argument: split on runs of whitespace. -/
def pySplitAux : List Char → List Char → List (List Char)
  | [], acc => if acc = [] then [] else [acc.reverse]
  | c :: cs, acc =>
    if c.isWhitespace then
      if acc = [] then pySplitAux cs [] else acc.reverse :: pySplitAux cs []
    else pySplitAux cs (c :: acc)

def pySplit (l : List Char) : List (List Char) := pySplitAux l []

/-- `Policy._run_kernel` quote stripping: one layer of matching double or
single quotes is removed from a token. -/
def stripQuotes (t : List Char) : List Char :=
  match t with
  | [] => []
  | c :: _ =>
    if (c = dquote ∧ t.getLast? = some dquote) ∨
       (c = squote ∧ t.getLast? = some squote) then
      (t.drop 1).dropLast
    else t

/-- `Policy._run_kernel` against a healthy evaluator daemon: split the
formatted expression into tokens, strip legacy quotes, send to the
evaluator, and compare the response line with the string `1`. -/
def run_kernel (rpn_expr : List Char) : Bool :=
  rpnRespond (evalTokens ((pySplit rpn_expr).map stripQuotes) []) = ['1']

structure DecisionProof where
  allowed : Bool
  trace : List (String × Bool)
  policy_name : String
  timestamp : ℚ
deriving DecidableEq

/-- The combination field of a policy definition: the literal strings
`OR` and `AND`, or any other string treated as a format template over the
clause results. -/
inductive CombinationRule where
  | OR
  | AND
  | expr (t : Template)

structure Policy where
  name : String
  clauses : List (String × Template)
  combination : CombinationRule

/-- The per-clause loop of `Policy.evaluate`: each clause template is
formatted against the context and run through the kernel; a clause whose
formatting raises is recorded as `false` in the trace and `"0"` in the
context, and the remaining clauses still run.  The kernel callback stands
for `_run_kernel` (the daemon round trip). -/
def evalClauses (kernel : List Char → Bool) :
    List (String × Template) → Context → List (String × Bool) × Context
  | [], ctx => ([], ctx)
  | (clause_name, template) :: rest, ctx =>
    match pyFormat template ctx with
    | some rpn_expr =>
      let result_bool := kernel rpn_expr
      let ctx1 := setA ctx clause_name (if result_bool then "1" else "0")
      let (tr, ctx2) := evalClauses kernel rest ctx1
      ((clause_name, result_bool) :: tr, ctx2)
    | none =>
      let ctx1 := setA ctx clause_name "0"
      let (tr, ctx2) := evalClauses kernel rest ctx1
      ((clause_name, false) :: tr, ctx2)

/-- `Policy.evaluate`.  The context is mutated in place in the source; the
mutated context is returned explicitly here (the caller logs it). -/
def Policy.evaluate (kernel : List Char → Bool) (p : Policy) (context : Context)
    (now : ℚ) : DecisionProof × Context :=
  let (trace, ctx1) := evalClauses kernel p.clauses context
  let final_result :=
    match p.combination with
    | CombinationRule.OR => trace.any (fun kv => kv.2)
    | CombinationRule.AND => trace.all (fun kv => kv.2)
    | CombinationRule.expr t =>
      let trace_map := trace.map (fun kv => (kv.1, if kv.2 then "1" else "0"))
      match pyFormat t trace_map with
      | some combined_expr => kernel combined_expr
      | none => false
  (⟨final_result, trace, p.name, now⟩, ctx1)

/-! ## registry.py -/

def ACTIONS : List (String × Nat) :=
  [("READ_FILE", 101), ("LIST_DIR", 102), ("WRITE_FILE", 201),
   ("DELETE_FILE", 202), ("DELETE_DB", 902), ("DEPLOY", 903),
   ("NET_SCAN", 301), ("NET_CONNECT", 302), ("SYSTEM_REBOOT", 901)]

def ROLE_GUEST : Nat := 1

def ROLE_USER : Nat := 2

def ROLE_ADMIN : Nat := 4

def STANDARD_ACCESS_POLICY : Policy :=
  { name := "StandardAccess"
    clauses :=
      [("is_admin", [TItem.arg "role_mask", TItem.lit " 4 \"&\" 4 \"=\""]),
       ("is_safe_action",
        [TItem.arg "action_id", TItem.lit " 200 \"<\" ",
         TItem.arg "action_id", TItem.lit " 99 \">\" \"&\""])]
    combination := CombinationRule.OR }

def EPOCH_POLICY : Policy :=
  { name := "EpochState"
    clauses :=
      [("is_normal_mode", [TItem.arg "epoch", TItem.lit " 0 \"=\""]),
       ("is_emergency_mode", [TItem.arg "epoch", TItem.lit " 1 \"=\""]),
       ("is_admin", [TItem.arg "role_mask", TItem.lit " 4 \"&\" 4 \"=\""])]
    combination := CombinationRule.OR }

/-! ## governance.py: verify_action and its jsonl ledger -/

structure LedgerEntry where
  timestamp : ℚ
  policy : String
  allowed : Bool
  trace : List (String × Bool)
  context : Context
deriving DecidableEq

/-- `verify_action` of governance.py.  The globals are passed explicitly:
`kernel` is the daemon round trip and `current_policy` the module-level
active policy.  The returned list holds the entries `_log_to_ledger`
appended to audit_log.jsonl during the call. -/
def verify_action (kernel : List Char → Bool) (current_policy : Policy)
    (role_mask : Nat) (action_name : String) (param_val : Int)
    (context_overrides : List (String × String)) (now : ℚ) :
    DecisionProof × List LedgerEntry :=
  match lookupA ACTIONS action_name with
  | none => (⟨false, [("unknown_action", false)], "Unknown", now⟩, [])
  | some action_id =>
    let context : Context :=
      [("role_mask", strOfNat role_mask), ("action_id", strOfNat action_id)]
    let context := context_overrides.foldl (fun c kv => setA c kv.1 kv.2) context
    let (proof, ctx1) := Policy.evaluate kernel current_policy context now
    (proof, [⟨now, proof.policy_name, proof.allowed, proof.trace, ctx1⟩])

/-- The epoch gate of governed_graph.py's Gatekeeper: allowed when normal
mode, or emergency mode with an admin role. -/
def gatekeeper_gate (trace : List (String × Bool)) : Bool :=
  let is_normal := (lookupA trace "is_normal_mode").getD false
  let is_emergency := (lookupA trace "is_emergency_mode").getD false
  let is_admin := (lookupA trace "is_admin").getD false
  is_normal || (is_emergency && is_admin)

/-! ## Idealized Ed25519 (PyNaCl is an external library)

The signature scheme is embedded in the standard symbolic (Dolev-Yao)
idealization: a signature is an opaque value determined by the signing
key pair and the exact signed payload, and verification succeeds exactly
when the presented signature is the one produced over the presented
payload by the key matching the public key.  Hex encodings of keys are
abstracted away; a key pair is identified by its seed and the public key
derivation is injective.  The canonical JSON serialization the source
signs (`json.dumps` with `sort_keys=True`) is injective on the payload
fields, so the payload is represented by the fields themselves. -/

structure Ed25519Sig (α : Type) where
  pub : Nat
  payload : α
deriving DecidableEq

def derivePublic (signing_key : Nat) : Nat := signing_key

def ed25519_sign {α : Type} (signing_key : Nat) (payload : α) : Ed25519Sig α :=
  ⟨derivePublic signing_key, payload⟩

def ed25519_verify {α : Type} [DecidableEq α] (public_key : Nat) (payload : α)
    (sig : Ed25519Sig α) : Bool :=
  decide (sig.pub = public_key ∧ sig.payload = payload)

/-! ## governance_crypto.py: Warrant -/

/-- The six signed fields of a warrant, in the role of the canonical JSON
payload `Warrant.create` and `Warrant.is_valid` serialize. -/
structure WPayload where
  action : String
  agent_id : String
  allowed : Bool
  timestamp : ℚ
  nonce : Int
  expiry : ℚ
deriving DecidableEq

/-- The stored hex signature string: either valid hex decoding to a
signature value, or a string `bytes.fromhex` rejects. -/
inductive SigField where
  | hex (s : Ed25519Sig WPayload)
  | badHex
deriving DecidableEq

structure Warrant where
  action : String
  agent_id : String
  allowed : Bool
  timestamp : ℚ
  signature : SigField
  nonce : Int
  expiry : ℚ
deriving DecidableEq

def Warrant.create (signing_key : Nat) (action agent_id : String)
    (allowed : Bool) (timestamp : ℚ) (nonce : Int) (ttl : ℚ) : Warrant :=
  let expiry := timestamp + ttl
  let payload : WPayload := ⟨action, agent_id, allowed, timestamp, nonce, expiry⟩
  ⟨action, agent_id, allowed, timestamp,
   SigField.hex (ed25519_sign signing_key payload), nonce, expiry⟩

/-- The payload `is_valid` rebuilds from the warrant's current fields. -/
def Warrant.payloadOf (w : Warrant) : WPayload :=
  ⟨w.action, w.agent_id, w.allowed, w.timestamp, w.nonce, w.expiry⟩

/-- The body of the `try` block in `is_valid`: `bytes.fromhex` raises
ValueError on a malformed hex signature, `verify` raises
BadSignatureError on a mismatch; both are caught by the bare `except`. -/
def verifyStep (public_key : Nat) (payload : WPayload) (sig : SigField) :
    Except String Unit :=
  match sig with
  | SigField.badHex => Except.error "non-hexadecimal number found in fromhex() arg"
  | SigField.hex s =>
    if ed25519_verify public_key payload s then Except.ok ()
    else Except.error "Signature was forged or corrupt"

/-- `Warrant.is_valid`, with the clock passed explicitly. -/
def Warrant.is_valid (w : Warrant) (public_key : Nat) (now : ℚ) : Bool :=
  if now > w.expiry then false
  else
    match verifyStep public_key w.payloadOf w.signature with
    | Except.ok _ => true
    | Except.error _ => false

/-! ## governance_crypto.py: MerkleLogger -/

/-- An audit entry minus its `curr_hash` field: exactly the dict that is
canonically serialized and hashed. -/
structure EntryPayload where
  prev_hash : String
  ts : ℚ
  agent : String
  policy : String
  inputs : Context
  decision : Bool
  trace : List (String × Bool)
deriving DecidableEq

structure AuditEntry where
  prev_hash : String
  ts : ℚ
  agent : String
  policy : String
  inputs : Context
  decision : Bool
  trace : List (String × Bool)
  curr_hash : String
deriving DecidableEq

def AuditEntry.payloadOf (e : AuditEntry) : EntryPayload :=
  ⟨e.prev_hash, e.ts, e.agent, e.policy, e.inputs, e.decision, e.trace⟩

def genesisHash : String := String.mk (List.replicate 64 '0')

/-- `MerkleLogger._get_last_hash`: the `curr_hash` of the last committed
entry, or the genesis hash when the chain file is empty or unreadable. -/
def get_last_hash (file : List AuditEntry) : String :=
  match file.getLast? with
  | none => genesisHash
  | some e => e.curr_hash

structure MerkleLogger where
  file : List AuditEntry
  last_hash : String

def MerkleLogger.init (file : List AuditEntry) : MerkleLogger :=
  ⟨file, get_last_hash file⟩

/-- `MerkleLogger.log_decision`.  `hashEntry` stands for SHA-256 of the
canonical serialization (`json.dumps` with `sort_keys=True`) of the entry
without `curr_hash`; the chain-shape results below hold for every such
hash function, so it is kept abstract. -/
def MerkleLogger.log_decision (hashEntry : EntryPayload → String)
    (st : MerkleLogger) (agent_id policy_name : String) (inputs : Context)
    (result_bool : Bool) (trace : List (String × Bool)) (now : ℚ) :
    MerkleLogger × String :=
  let p : EntryPayload :=
    ⟨st.last_hash, now, agent_id, policy_name, inputs, result_bool, trace⟩
  let curr_hash := hashEntry p
  let entry : AuditEntry :=
    ⟨p.prev_hash, p.ts, p.agent, p.policy, p.inputs, p.decision, p.trace, curr_hash⟩
  (⟨st.file ++ [entry], curr_hash⟩, curr_hash)

structure LogReq where
  agent : String
  policy : String
  inputs : Context
  decision : Bool
  trace : List (String × Bool)
  now : ℚ

def runLog (hashEntry : EntryPayload → String) :
    MerkleLogger → List LogReq → MerkleLogger
  | st, [] => st
  | st, r :: rs =>
    runLog hashEntry
      (st.log_decision hashEntry r.agent r.policy r.inputs r.decision r.trace r.now).1 rs

/-! ## policy_loader.py -/

/-- The Python exceptions `load_verified_policies` can raise. -/
inductive PyErr where
  | ioError
  | jsonDecodeError
  | keyError
  | valueError
  | securityError (msg : String)
deriving DecidableEq

/-- A parsed manifest dict.  The outer `Option` on `signature` models the
key being absent (KeyError on `data['signature']`); the inner one models
`bytes.fromhex` rejecting a non-hex string (ValueError).  The policies
map is identified with its canonical serialization (`json.dumps` with
`sort_keys=True` is injective on it), which is exactly the byte string
the root key signed. -/
structure ManifestData where
  signature : Option (Option (Ed25519Sig String))
  policies : Option String

/-- The state of the manifest file as `open` + `json.load` see it. -/
inductive ManifestFile where
  | missing
  | malformed
  | parsed (d : ManifestData)

/-- `load_verified_policies`.  Only the `verify` call sits inside the
try/except that re-raises as SecurityError; file and parse errors
propagate as their own exception types. -/
def load_verified_policies (file : ManifestFile) (public_key : Nat) :
    Except PyErr String :=
  match file with
  | ManifestFile.missing => Except.error PyErr.ioError
  | ManifestFile.malformed => Except.error PyErr.jsonDecodeError
  | ManifestFile.parsed d =>
    match d.signature with
    | none => Except.error PyErr.keyError
    | some none => Except.error PyErr.valueError
    | some (some sig) =>
      match d.policies with
      | none => Except.error PyErr.keyError
      | some policies =>
        if ed25519_verify public_key policies sig then Except.ok policies
        else
          Except.error
            (PyErr.securityError "POLICY TAMPERING DETECTED: Invalid Signature")

def isSecurityError : Except PyErr String → Bool
  | Except.error (PyErr.securityError _) => true
  | _ => false

/-! ## crypto_governance.py: RateLimiter -/

structure RateLimiter where
  rate : ℚ
  capacity : ℚ
  buckets : List (String × ℚ × ℚ)

/-- `RateLimiter.allowed`, with the clock passed explicitly. -/
def RateLimiter.allowed (rl : RateLimiter) (agent_id : String) (now : ℚ) :
    Bool × RateLimiter :=
  let (tokens, last) := (lookupA rl.buckets agent_id).getD (rl.capacity, now)
  let delta := now - last
  let tokens := min rl.capacity (tokens + delta * rl.rate)
  if tokens ≥ 1 then
    (true, ⟨rl.rate, rl.capacity, setA rl.buckets agent_id (tokens - 1, now)⟩)
  else
    (false, ⟨rl.rate, rl.capacity, setA rl.buckets agent_id (tokens, now)⟩)

/-- `n` back-to-back `allowed` calls for one agent at one instant. -/
def callsAt : RateLimiter → String → ℚ → Nat → List Bool × RateLimiter
  | rl, _, _, 0 => ([], rl)
  | rl, a, t, n + 1 =>
    let (b, rl1) := rl.allowed a t
    let (bs, rl2) := callsAt rl1 a t n
    (b :: bs, rl2)

/-! ## governance.py: DaemonController

The subprocess world is embedded as explicit state: `Option ProcState` is
the `self.process` handle (`none` when `Popen` failed), `alive` is the
non-blocking `poll() is None` liveness check, and `onWrite` is what the
next write/readline round trip against that process does.  `starts` is
the stream of outcomes successive `_start` calls would produce. -/

inductive WriteOutcome where
  | ok (resp : String)
  | brokenPipe
  | exn
deriving DecidableEq

structure ProcState where
  alive : Bool
  onWrite : WriteOutcome
deriving DecidableEq

def popStart (starts : List (Option ProcState)) :
    Option ProcState × List (Option ProcState) :=
  match starts with
  | [] => (none, [])
  | s :: rest => (s, rest)

/-- The write/flush/readline phase of `DaemonController.evaluate`: a
normal response is returned; BrokenPipeError restarts the daemon and
returns the literal string 0; any other exception returns the literal
string 0 with no restart. -/
def writeAndRead (p : ProcState) (starts : List (Option ProcState)) :
    String × Option ProcState × List (Option ProcState) :=
  match p.onWrite with
  | WriteOutcome.ok resp => (resp, some p, starts)
  | WriteOutcome.brokenPipe =>
    let (p2, st2) := popStart starts
    ("0", p2, st2)
  | WriteOutcome.exn => ("0", some p, starts)

/-- `DaemonController.evaluate`: when the process handle is gone or the
liveness check fails, `_start` runs once; if that yields no process the
call returns the string 0, otherwise the framed request is written to the
(possibly fresh) process. -/
def DaemonController.evaluate (process : Option ProcState)
    (starts : List (Option ProcState)) :
    String × Option ProcState × List (Option ProcState) :=
  match process with
  | none =>
    let (p1, st1) := popStart starts
    match p1 with
    | none => ("0", none, st1)
    | some p => writeAndRead p st1
  | some p =>
    if p.alive then writeAndRead p starts
    else
      let (p1, st1) := popStart starts
      match p1 with
      | none => ("0", none, st1)
      | some p2 => writeAndRead p2 st1

/-! ## Warrant lemmas -/

theorem is_valid_false_of_hex_payload_ne (w : Warrant) (public_key : Nat)
    (now : ℚ) (s : Ed25519Sig WPayload) (hsig : w.signature = SigField.hex s)
    (hne : s.payload ≠ w.payloadOf) : w.is_valid public_key now = false := by
  unfold Warrant.is_valid
  split
  · rfl
  · rw [hsig]
    simp [verifyStep, ed25519_verify, hne]

theorem is_valid_false_of_sig_ne (w : Warrant) (sk : Nat) (now : ℚ)
    (hne : w.signature ≠ SigField.hex (ed25519_sign sk w.payloadOf)) :
    w.is_valid (derivePublic sk) now = false := by
  unfold Warrant.is_valid
  split
  · rfl
  · cases hs : w.signature with
    | badHex => simp [verifyStep]
    | hex s =>
      obtain ⟨a, b⟩ := s
      have hsne : (⟨a, b⟩ : Ed25519Sig WPayload) ≠ ed25519_sign sk w.payloadOf := by
        intro h
        exact hne (hs.trans (by rw [h]))
      have hv : ed25519_verify (derivePublic sk) w.payloadOf (⟨a, b⟩ : Ed25519Sig WPayload) = false := by
        unfold ed25519_verify
        simp only [decide_eq_false_iff_not]
        rintro ⟨h1, h2⟩
        exact hsne (by unfold ed25519_sign; rw [h1, h2])
      simp [verifyStep, hv]

/-- C1: a freshly issued warrant validates against the matching public key
before its ttl elapses, and altering the signature or any one of the six
signed fields (action, agentId, allowed, timestamp, nonce, expiry) makes
validation return false. -/
theorem warrant_round_trip (sk : Nat) (action agent_id : String)
    (allowed : Bool) (timestamp : ℚ) (nonce : Int) (ttl now : ℚ)
    (hnow : now ≤ timestamp + ttl) :
    Warrant.is_valid (Warrant.create sk action agent_id allowed timestamp nonce ttl)
      (derivePublic sk) now = true
    ∧ (∀ sig2 : SigField,
        sig2 ≠ (Warrant.create sk action agent_id allowed timestamp nonce ttl).signature →
        Warrant.is_valid
          { Warrant.create sk action agent_id allowed timestamp nonce ttl with
            signature := sig2 } (derivePublic sk) now = false)
    ∧ (∀ x : String, x ≠ action →
        Warrant.is_valid
          { Warrant.create sk action agent_id allowed timestamp nonce ttl with
            action := x } (derivePublic sk) now = false)
    ∧ (∀ x : String, x ≠ agent_id →
        Warrant.is_valid
          { Warrant.create sk action agent_id allowed timestamp nonce ttl with
            agent_id := x } (derivePublic sk) now = false)
    ∧ (∀ x : Bool, x ≠ allowed →
        Warrant.is_valid
          { Warrant.create sk action agent_id allowed timestamp nonce ttl with
            allowed := x } (derivePublic sk) now = false)
    ∧ (∀ x : ℚ, x ≠ timestamp →
        Warrant.is_valid
          { Warrant.create sk action agent_id allowed timestamp nonce ttl with
            timestamp := x } (derivePublic sk) now = false)
    ∧ (∀ x : Int, x ≠ nonce →
        Warrant.is_valid
          { Warrant.create sk action agent_id allowed timestamp nonce ttl with
            nonce := x } (derivePublic sk) now = false)
    ∧ (∀ x : ℚ, x ≠ timestamp + ttl →
        Warrant.is_valid
          { Warrant.create sk action agent_id allowed timestamp nonce ttl with
            expiry := x } (derivePublic sk) now = false) := by
  refine ⟨?_, ?_, ?_, ?_, ?_, ?_, ?_, ?_⟩
  · unfold Warrant.create Warrant.is_valid Warrant.payloadOf
    rw [if_neg (not_lt.mpr hnow)]
    simp [verifyStep, ed25519_verify, ed25519_sign]
  · intro sig2 hne
    unfold Warrant.is_valid
    split
    · rfl
    · unfold Warrant.create at hne
      simp only at hne
      cases sig2 with
      | badHex => simp [verifyStep]
      | hex s =>
        obtain ⟨a, b⟩ := s
        have hv : ed25519_verify (derivePublic sk)
            (Warrant.payloadOf
              { Warrant.create sk action agent_id allowed timestamp nonce ttl with
                signature := SigField.hex ⟨a, b⟩ })
            (⟨a, b⟩ : Ed25519Sig WPayload) = false := by
          unfold ed25519_verify Warrant.payloadOf Warrant.create
          simp only [decide_eq_false_iff_not]
          rintro ⟨h1, h2⟩
          apply hne
          simp only [h1, h2]
          rfl
        simp only [verifyStep, hv, Bool.false_eq_true, if_false]
  · intro x hx
    apply is_valid_false_of_hex_payload_ne _ _ _ (ed25519_sign sk
      ⟨action, agent_id, allowed, timestamp, nonce, timestamp + ttl⟩) rfl
    unfold ed25519_sign Warrant.payloadOf Warrant.create
    simp only [ne_eq, WPayload.mk.injEq, not_and]
    intro h
    exact absurd h.symm hx
  · intro x hx
    apply is_valid_false_of_hex_payload_ne _ _ _ (ed25519_sign sk
      ⟨action, agent_id, allowed, timestamp, nonce, timestamp + ttl⟩) rfl
    unfold ed25519_sign Warrant.payloadOf Warrant.create
    simp only [ne_eq, WPayload.mk.injEq, not_and]
    intro _ h
    exact absurd h.symm hx
  · intro x hx
    apply is_valid_false_of_hex_payload_ne _ _ _ (ed25519_sign sk
      ⟨action, agent_id, allowed, timestamp, nonce, timestamp + ttl⟩) rfl
    unfold ed25519_sign Warrant.payloadOf Warrant.create
    simp only [ne_eq, WPayload.mk.injEq, not_and]
    intro _ _ h
    exact absurd h.symm hx
  · intro x hx
    apply is_valid_false_of_hex_payload_ne _ _ _ (ed25519_sign sk
      ⟨action, agent_id, allowed, timestamp, nonce, timestamp + ttl⟩) rfl
    unfold ed25519_sign Warrant.payloadOf Warrant.create
    simp only [ne_eq, WPayload.mk.injEq, not_and]
    intro _ _ _ h
    exact absurd h.symm hx
  · intro x hx
    apply is_valid_false_of_hex_payload_ne _ _ _ (ed25519_sign sk
      ⟨action, agent_id, allowed, timestamp, nonce, timestamp + ttl⟩) rfl
    unfold ed25519_sign Warrant.payloadOf Warrant.create
    simp only [ne_eq, WPayload.mk.injEq, not_and]
    intro _ _ _ _ h
    exact absurd h.symm hx
  · intro x hx
    apply is_valid_false_of_hex_payload_ne _ _ _ (ed25519_sign sk
      ⟨action, agent_id, allowed, timestamp, nonce, timestamp + ttl⟩) rfl
    unfold ed25519_sign Warrant.payloadOf Warrant.create
    simp only [ne_eq, WPayload.mk.injEq, not_and]
    intro _ _ _ _ _ h
    exact absurd h.symm hx

/-- Witness for C1 at concrete inputs. -/
theorem warrant_round_trip_witness :
    ((0 : ℚ) ≤ 0 + 0)
    ∧ Warrant.is_valid (Warrant.create 7 "READ_FILE" "agent" true 0 1 0)
        (derivePublic 7) 0 = true
    ∧ Warrant.is_valid
        { Warrant.create 7 "READ_FILE" "agent" true 0 1 0 with nonce := 99 }
        (derivePublic 7) 0 = false :=
  ⟨by simp,
   (warrant_round_trip 7 "READ_FILE" "agent" true 0 1 0 0 (by simp)).1,
   (warrant_round_trip 7 "READ_FILE" "agent" true 0 1 0 0
     (by simp)).2.2.2.2.2.2.1 99 (by decide)⟩

/-- C6: validation returns false as soon as the clock exceeds the expiry,
whatever the signature; otherwise it is exactly the outcome of the
verification step over the recomputed canonical payload, and any
verification exception yields false rather than propagating. -/
theorem warrant_validate_contract (w : Warrant) (public_key : Nat) (now : ℚ) :
    (now > w.expiry → w.is_valid public_key now = false)
    ∧ (¬ now > w.expiry →
        w.is_valid public_key now =
          match verifyStep public_key w.payloadOf w.signature with
          | Except.ok _ => true
          | Except.error _ => false)
    ∧ (∀ msg, verifyStep public_key w.payloadOf w.signature = Except.error msg →
        w.is_valid public_key now = false) := by
  refine ⟨?_, ?_, ?_⟩
  · intro h
    unfold Warrant.is_valid
    rw [if_pos h]
  · intro h
    unfold Warrant.is_valid
    rw [if_neg h]
  · intro msg hmsg
    unfold Warrant.is_valid
    split
    · rfl
    · rw [hmsg]

/-- Witness for C6: an expired warrant is rejected, and a warrant whose
signature field is not valid hex is rejected through the caught
exception. -/
theorem warrant_validate_contract_witness :
    Warrant.is_valid (Warrant.create 7 "A" "B" true 0 0 0) 7 1 = false
    ∧ Warrant.is_valid ⟨"A", "B", true, 0, SigField.badHex, 0, 5⟩ 3 0 = false :=
  ⟨(warrant_validate_contract (Warrant.create 7 "A" "B" true 0 0 0) 7 1).1
     (by simp [Warrant.create]),
   (warrant_validate_contract ⟨"A", "B", true, 0, SigField.badHex, 0, 5⟩ 3 0).2.2
     "non-hexadecimal number found in fromhex() arg" rfl⟩

/-! ## Manifest loading (C3) -/

/-- C3 counterexample: a missing manifest file raises FileNotFoundError,
not SecurityError, so not every I/O error surfaces as a SecurityError. -/
theorem manifest_fail_closed_counterexample :
    load_verified_policies ManifestFile.missing 0 = Except.error PyErr.ioError
    ∧ isSecurityError (load_verified_policies ManifestFile.missing 0) = false :=
  ⟨rfl, rfl⟩

/-- C3 amended: tampering with the signed policies payload raises
SecurityError; I/O errors and malformed payloads raise their own
exception types instead; and loading is all-or-nothing — a successful
load returns exactly the signed policies payload whose signature
verified. -/
theorem manifest_fail_closed_amended (sk public_key : Nat)
    (orig tampered ps : String) (file : ManifestFile) :
    (tampered ≠ orig →
      load_verified_policies
        (ManifestFile.parsed ⟨some (some (ed25519_sign sk orig)), some tampered⟩)
        (derivePublic sk)
      = Except.error (PyErr.securityError "POLICY TAMPERING DETECTED: Invalid Signature"))
    ∧ (load_verified_policies file public_key = Except.ok ps →
        ∃ d2 : ManifestData, ∃ sig2 : Ed25519Sig String,
          file = ManifestFile.parsed d2 ∧ d2.policies = some ps ∧
          d2.signature = some (some sig2) ∧ ed25519_verify public_key ps sig2 = true)
    ∧ load_verified_policies ManifestFile.missing public_key = Except.error PyErr.ioError
    ∧ load_verified_policies ManifestFile.malformed public_key
        = Except.error PyErr.jsonDecodeError := by
  refine ⟨?_, ?_, rfl, rfl⟩
  · intro h
    have hv : ed25519_verify (derivePublic sk) tampered
        (ed25519_sign sk orig) = false := by
      unfold ed25519_verify ed25519_sign
      simp only [decide_eq_false_iff_not]
      rintro ⟨-, h2⟩
      exact h h2.symm
    simp only [load_verified_policies, hv, Bool.false_eq_true, if_false]
  · intro h
    cases file with
    | missing => exact absurd h (by simp [load_verified_policies])
    | malformed => exact absurd h (by simp [load_verified_policies])
    | parsed d2 =>
      obtain ⟨sigf, pol⟩ := d2
      cases sigf with
      | none => exact absurd h (by simp [load_verified_policies])
      | some sigi =>
        cases sigi with
        | none => exact absurd h (by simp [load_verified_policies])
        | some s =>
          cases pol with
          | none => exact absurd h (by simp [load_verified_policies])
          | some p =>
            simp only [load_verified_policies] at h
            cases hv : ed25519_verify public_key p s with
            | false =>
              rw [hv] at h
              simp at h
            | true =>
              rw [hv] at h
              simp only [if_true] at h
              have hps : p = ps := by
                cases h
                rfl
              exact ⟨⟨some (some s), some p⟩, s, rfl, by rw [hps], rfl,
                by rw [← hps]; exact hv⟩

/-- Witness for C3 amended at concrete inputs. -/
theorem manifest_fail_closed_amended_witness :
    ("x" : String) ≠ "y"
    ∧ load_verified_policies
        (ManifestFile.parsed ⟨some (some (ed25519_sign 0 "y")), some "x"⟩)
        (derivePublic 0)
      = Except.error (PyErr.securityError "POLICY TAMPERING DETECTED: Invalid Signature")
    ∧ (∃ d2 : ManifestData, ∃ sig2 : Ed25519Sig String,
        ManifestFile.parsed ⟨some (some (ed25519_sign 0 "p")), some "p"⟩
          = ManifestFile.parsed d2 ∧ d2.policies = some "p" ∧
        d2.signature = some (some sig2) ∧ ed25519_verify (derivePublic 0) "p" sig2 = true) :=
  ⟨by decide,
   (manifest_fail_closed_amended 0 0 "y" "x" "p" ManifestFile.missing).1 (by decide),
   (manifest_fail_closed_amended 0 (derivePublic 0) "y" "x" "p"
     (ManifestFile.parsed ⟨some (some (ed25519_sign 0 "p")), some "p"⟩)).2.1 rfl⟩

/-! ## Epoch scenario (C4) -/

/-- C4 counterexample: under the epoch policy a guest request with epoch 1
is ALLOWED by the policy decision (the combination is a plain OR over
is_normal_mode, is_emergency_mode and is_admin, and is_emergency_mode is
true), contradicting the claimed allowed = false. -/
theorem epoch_scenario_counterexample :
    (verify_action run_kernel EPOCH_POLICY ROLE_GUEST "NET_CONNECT" 0
      [("epoch", "1")] 0).1.allowed = true := by
  decide

/-- C4 amended: guest with epoch 0 gets is_normal_mode = true and
allowed = true; guest with epoch 1 gets is_emergency_mode = true,
is_admin = false and a policy decision allowed = true — the denial in the
epoch scenario is applied by the graph gatekeeper's external gate
(normal OR (emergency AND admin)), which is false here — and admin with
epoch 1 gets is_admin = true and allowed = true. -/
theorem epoch_scenario_amended :
    (lookupA (verify_action run_kernel EPOCH_POLICY ROLE_GUEST "NET_CONNECT" 0
        [("epoch", "0")] 0).1.trace "is_normal_mode" = some true
      ∧ (verify_action run_kernel EPOCH_POLICY ROLE_GUEST "NET_CONNECT" 0
        [("epoch", "0")] 0).1.allowed = true)
    ∧ (lookupA (verify_action run_kernel EPOCH_POLICY ROLE_GUEST "NET_CONNECT" 0
        [("epoch", "1")] 0).1.trace "is_emergency_mode" = some true
      ∧ lookupA (verify_action run_kernel EPOCH_POLICY ROLE_GUEST "NET_CONNECT" 0
        [("epoch", "1")] 0).1.trace "is_admin" = some false
      ∧ (verify_action run_kernel EPOCH_POLICY ROLE_GUEST "NET_CONNECT" 0
        [("epoch", "1")] 0).1.allowed = true
      ∧ gatekeeper_gate (verify_action run_kernel EPOCH_POLICY ROLE_GUEST "NET_CONNECT" 0
        [("epoch", "1")] 0).1.trace = false)
    ∧ (lookupA (verify_action run_kernel EPOCH_POLICY ROLE_ADMIN "NET_CONNECT" 0
        [("epoch", "1")] 0).1.trace "is_admin" = some true
      ∧ (verify_action run_kernel EPOCH_POLICY ROLE_ADMIN "NET_CONNECT" 0
        [("epoch", "1")] 0).1.allowed = true) := by
  decide

/-! ## Unknown actions (C5) -/

/-- C5: an action name absent from the registry is denied immediately
with the fixed Unknown proof, independent of the kernel, the active
policy, the role mask and the overrides, and with no ledger append and no
policy evaluation. -/
theorem unknown_action_denies (kernel : List Char → Bool)
    (current_policy : Policy) (role_mask : Nat) (param_val : Int)
    (context_overrides : List (String × String)) (now : ℚ)
    (action_name : String) (h : lookupA ACTIONS action_name = none) :
    verify_action kernel current_policy role_mask action_name param_val
      context_overrides now
    = (⟨false, [("unknown_action", false)], "Unknown", now⟩, []) := by
  unfold verify_action
  rw [h]

/-- Witness for C5 at the unknown action name the repository's own test
uses. -/
theorem unknown_action_denies_witness :
    lookupA ACTIONS "LAUNCH_NUKES" = none
    ∧ verify_action run_kernel STANDARD_ACCESS_POLICY ROLE_ADMIN "LAUNCH_NUKES"
        0 [] 0
      = (⟨false, [("unknown_action", false)], "Unknown", 0⟩, []) :=
  ⟨by decide,
   unknown_action_denies run_kernel STANDARD_ACCESS_POLICY ROLE_ADMIN 0 [] 0
     "LAUNCH_NUKES" (by decide)⟩

/-! ## Evaluator client recovery (C10) -/

/-- C10 counterexample: a broken pipe on a live process restarts the
daemon, and the restart succeeds with a healthy process that would answer
the retried call, yet the call still returns the safe default 0 — the
claim that 0 is returned only when the restart or the retried call fails
is false. -/
theorem evaluator_recovery_counterexample :
    DaemonController.evaluate (some ⟨true, WriteOutcome.brokenPipe⟩)
        [some ⟨true, WriteOutcome.ok "1"⟩]
      = ("0", some ⟨true, WriteOutcome.ok "1"⟩, [])
    ∧ writeAndRead ⟨true, WriteOutcome.ok "1"⟩ []
      = ("1", some ⟨true, WriteOutcome.ok "1"⟩, []) :=
  ⟨rfl, rfl⟩

/-- C10 amended: when the process is missing or found dead before the
write, the client restarts once and performs the call against the fresh
process, returning 0 only if the restart fails; a broken pipe during the
write restarts once but returns 0 without retrying; any other write error
returns 0 without restarting; no case propagates an exception. -/
theorem evaluator_recovery_amended (process : Option ProcState)
    (starts st1 : List (Option ProcState)) (p p2 : ProcState) (resp : String) :
    ((process = none ∨ process = some ⟨false, p.onWrite⟩) →
      (popStart starts = (none, st1) →
        DaemonController.evaluate process starts = ("0", none, st1))
      ∧ (popStart starts = (some p2, st1) →
        DaemonController.evaluate process starts = writeAndRead p2 st1))
    ∧ (process = some p → p.alive = true → p.onWrite = WriteOutcome.ok resp →
        DaemonController.evaluate process starts = (resp, some p, starts))
    ∧ (process = some p → p.alive = true → p.onWrite = WriteOutcome.brokenPipe →
        DaemonController.evaluate process starts
          = ("0", (popStart starts).1, (popStart starts).2))
    ∧ (process = some p → p.alive = true → p.onWrite = WriteOutcome.exn →
        DaemonController.evaluate process starts = ("0", some p, starts)) := by
  refine ⟨?_, ?_, ?_, ?_⟩
  · intro hdead
    constructor
    · intro hpop
      cases hdead with
      | inl h => subst h; simp [DaemonController.evaluate, hpop]
      | inr h => subst h; simp [DaemonController.evaluate, hpop]
    · intro hpop
      cases hdead with
      | inl h => subst h; simp [DaemonController.evaluate, hpop]
      | inr h => subst h; simp [DaemonController.evaluate, hpop]
  · intro hp halive hw
    subst hp
    simp [DaemonController.evaluate, halive, writeAndRead, hw]
  · intro hp halive hw
    subst hp
    simp [DaemonController.evaluate, halive, writeAndRead, hw]
  · intro hp halive hw
    subst hp
    simp [DaemonController.evaluate, halive, writeAndRead, hw]

/-! ## Clause evaluation lemmas (C7) -/

theorem lookupA_setA {α : Type} : ∀ (l : List (String × α)) (k : String) (v : α),
    lookupA (setA l k v) k = some v := by
  intro l
  induction l with
  | nil => intro k v; simp [setA, lookupA]
  | cons kv rest ih =>
    intro k v
    obtain ⟨k2, w⟩ := kv
    by_cases h : k2 = k
    · simp [setA, lookupA, h]
    · simp only [setA, h, if_false]
      simp [lookupA, h, ih]

theorem evalClauses_names (kernel : List Char → Bool) :
    ∀ (clauses : List (String × Template)) (ctx : Context),
    ((evalClauses kernel clauses ctx).1).map Prod.fst = clauses.map Prod.fst := by
  intro clauses
  induction clauses with
  | nil => intro ctx; rfl
  | cons c rest ih =>
    intro ctx
    obtain ⟨name, tmpl⟩ := c
    cases h : pyFormat tmpl ctx with
    | some s => simp [evalClauses, h, ih]
    | none => simp [evalClauses, h, ih]

theorem evalClauses_append (kernel : List Char → Bool)
    (xs ys : List (String × Template)) : ∀ ctx : Context,
    evalClauses kernel (xs ++ ys) ctx =
      ((evalClauses kernel xs ctx).1 ++
        (evalClauses kernel ys (evalClauses kernel xs ctx).2).1,
       (evalClauses kernel ys (evalClauses kernel xs ctx).2).2) := by
  induction xs with
  | nil => intro ctx; simp [evalClauses]
  | cons c rest ih =>
    intro ctx
    obtain ⟨name, tmpl⟩ := c
    cases h : pyFormat tmpl ctx with
    | some s => simp [evalClauses, h, ih]
    | none => simp [evalClauses, h, ih]

/-- C7: when a clause's template formatting fails at the point it is
reached (here, after the clauses before it have run), that clause is
recorded as false in the trace and as the string 0 in the context, every
remaining clause is still evaluated, and the trace still lists every
clause of the policy in declaration order — for every evaluator kernel,
so the failure never escapes. -/
theorem clause_failure_isolation (kernel : List Char → Bool) (name : String)
    (tmpl : Template) (pre post : List (String × Template)) (ctx : Context)
    (hfail : pyFormat tmpl (evalClauses kernel pre ctx).2 = none) :
    (evalClauses kernel (pre ++ (name, tmpl) :: post) ctx).1
      = (evalClauses kernel pre ctx).1 ++ (name, false) ::
          (evalClauses kernel post
            (setA (evalClauses kernel pre ctx).2 name "0")).1
    ∧ lookupA (setA (evalClauses kernel pre ctx).2 name "0") name = some "0"
    ∧ ((evalClauses kernel (pre ++ (name, tmpl) :: post) ctx).1).map Prod.fst
      = (pre ++ (name, tmpl) :: post).map Prod.fst := by
  refine ⟨?_, lookupA_setA _ _ _, evalClauses_names _ _ _⟩
  rw [evalClauses_append]
  simp [evalClauses, hfail]

/-- Witness for C7: a clause referencing a missing context variable fails
to format, is traced as false, and its sibling still evaluates. -/
theorem clause_failure_isolation_witness :
    pyFormat [TItem.arg "missing"] (evalClauses run_kernel [] []).2 = none
    ∧ (evalClauses run_kernel ([] ++ ("c", [TItem.arg "missing"]) ::
        [("d", [TItem.lit "1"])]) []).1
      = (evalClauses run_kernel [] []).1 ++ ("c", false) ::
          (evalClauses run_kernel [("d", [TItem.lit "1"])]
            (setA (evalClauses run_kernel [] []).2 "c" "0")).1 :=
  ⟨by decide,
   (clause_failure_isolation run_kernel "c" [TItem.arg "missing"] []
     [("d", [TItem.lit "1"])] [] (by decide)).1⟩

/-! ## Audit chain lemmas (C2) -/

/-- The chain shape of a list of audit entries, starting from a given
previous hash: each entry commits to the hash before it and carries the
hash of its own payload. -/
def chainFrom (hashEntry : EntryPayload → String) (prev : String) :
    List AuditEntry → Prop
  | [] => True
  | e :: rest =>
    e.prev_hash = prev ∧ e.curr_hash = hashEntry e.payloadOf ∧
      chainFrom hashEntry e.curr_hash rest

def chainLastHash (prev : String) (l : List AuditEntry) : String :=
  match l.getLast? with
  | none => prev
  | some e => e.curr_hash

theorem chainLastHash_cons (prev : String) (x : AuditEntry)
    (xs : List AuditEntry) :
    chainLastHash prev (x :: xs) = chainLastHash x.curr_hash xs := by
  cases xs with
  | nil => rfl
  | cons y ys =>
    simp only [chainLastHash, List.getLast?_cons_cons]
    cases h : (y :: ys).getLast? with
    | none => exact absurd h (by simp)
    | some e => rfl

theorem chainLastHash_concat (prev : String) (l : List AuditEntry)
    (e : AuditEntry) : chainLastHash prev (l ++ [e]) = e.curr_hash := by
  simp [chainLastHash, List.getLast?_concat]

theorem chainFrom_append (hashEntry : EntryPayload → String) :
    ∀ (l : List AuditEntry) (prev : String) (e : AuditEntry),
    chainFrom hashEntry prev l → e.prev_hash = chainLastHash prev l →
    e.curr_hash = hashEntry e.payloadOf →
    chainFrom hashEntry prev (l ++ [e]) := by
  intro l
  induction l with
  | nil =>
    intro prev e _ h2 h3
    exact ⟨h2, h3, trivial⟩
  | cons x xs ih =>
    intro prev e hchain h2 h3
    obtain ⟨hx1, hx2, hx3⟩ := hchain
    exact ⟨hx1, hx2, ih x.curr_hash e hx3 (by rw [← chainLastHash_cons prev x xs]; exact h2) h3⟩

theorem runLog_chain (hashEntry : EntryPayload → String) :
    ∀ (reqs : List LogReq) (st : MerkleLogger) (prev : String),
    chainFrom hashEntry prev st.file →
    st.last_hash = chainLastHash prev st.file →
    chainFrom hashEntry prev (runLog hashEntry st reqs).file := by
  intro reqs
  induction reqs with
  | nil => intro st prev h1 _; exact h1
  | cons r rs ih =>
    intro st prev h1 h2
    simp only [runLog, MerkleLogger.log_decision]
    apply ih
    · exact chainFrom_append hashEntry st.file prev _ h1 (by rw [h2]) rfl
    · simp [chainLastHash_concat]

theorem chainFrom_get (hashEntry : EntryPayload → String) :
    ∀ (l : List AuditEntry) (prev : String), chainFrom hashEntry prev l →
    (∀ i, ∀ h : i < l.length,
      (l.get ⟨i, h⟩).curr_hash = hashEntry (l.get ⟨i, h⟩).payloadOf)
    ∧ (∀ i, ∀ h : i + 1 < l.length,
      (l.get ⟨i + 1, h⟩).prev_hash = (l.get ⟨i, Nat.lt_of_succ_lt h⟩).curr_hash)
    ∧ (∀ h0 : 0 < l.length, (l.get ⟨0, h0⟩).prev_hash = prev) := by
  intro l
  induction l with
  | nil =>
    intro prev _
    refine ⟨?_, ?_, ?_⟩
    · intro i h; exact absurd h (by simp)
    · intro i h; exact absurd h (by simp)
    · intro h0; exact absurd h0 (by simp)
  | cons x xs ih =>
    intro prev hc
    obtain ⟨h1, h2, h3⟩ := hc
    obtain ⟨ih1, ih2, ih3⟩ := ih x.curr_hash h3
    refine ⟨?_, ?_, ?_⟩
    · intro i h
      cases i with
      | zero => exact h2
      | succ j => exact ih1 j (Nat.lt_of_succ_lt_succ h)
    · intro i h
      cases i with
      | zero =>
        exact ih3 (Nat.lt_of_succ_lt_succ h)
      | succ j => exact ih2 j (Nat.lt_of_succ_lt_succ h)
    · intro h0; exact h1

/-- C2: starting from an empty chain file, any sequence of appends yields
a chain where every stored curr_hash is the hash of that entry's payload
with curr_hash excluded, every later entry's prev_hash is the previous
entry's curr_hash, and the first entry's prev_hash is the genesis string
of 64 zeros — for every hash function in the curr_hash role. -/
theorem audit_chain_integrity (hashEntry : EntryPayload → String)
    (reqs : List LogReq) :
    (∀ i, ∀ h : i < ((runLog hashEntry (MerkleLogger.init []) reqs).file).length,
      (((runLog hashEntry (MerkleLogger.init []) reqs).file).get ⟨i, h⟩).curr_hash
        = hashEntry ((((runLog hashEntry (MerkleLogger.init []) reqs).file).get
            ⟨i, h⟩).payloadOf))
    ∧ (∀ i, ∀ h : i + 1 < ((runLog hashEntry (MerkleLogger.init []) reqs).file).length,
      (((runLog hashEntry (MerkleLogger.init []) reqs).file).get ⟨i + 1, h⟩).prev_hash
        = (((runLog hashEntry (MerkleLogger.init []) reqs).file).get
            ⟨i, Nat.lt_of_succ_lt h⟩).curr_hash)
    ∧ (∀ h0 : 0 < ((runLog hashEntry (MerkleLogger.init []) reqs).file).length,
      (((runLog hashEntry (MerkleLogger.init []) reqs).file).get ⟨0, h0⟩).prev_hash
        = genesisHash) := by
  exact chainFrom_get hashEntry _ genesisHash
    (runLog_chain hashEntry reqs (MerkleLogger.init []) genesisHash trivial rfl)

/-- Witness for C2: one concrete append produces a one-entry chain whose
first entry's prev_hash is the genesis hash and whose curr_hash is the
hash of its payload. -/
theorem audit_chain_integrity_witness :
    (((runLog (fun _ => "h") (MerkleLogger.init [])
        [⟨"a", "p", [], true, [], 0⟩]).file).get ⟨0, by decide⟩).prev_hash
      = genesisHash
    ∧ (((runLog (fun _ => "h") (MerkleLogger.init [])
        [⟨"a", "p", [], true, [], 0⟩]).file).get ⟨0, by decide⟩).curr_hash
      = (fun _ => "h") ((((runLog (fun _ => "h") (MerkleLogger.init [])
        [⟨"a", "p", [], true, [], 0⟩]).file).get ⟨0, by decide⟩).payloadOf) :=
  ⟨(audit_chain_integrity (fun _ => "h") [⟨"a", "p", [], true, [], 0⟩]).2.2
     (by decide),
   (audit_chain_integrity (fun _ => "h") [⟨"a", "p", [], true, [], 0⟩]).1 0
     (by decide)⟩

/-! ## Rate limiter lemmas (C9) -/

theorem allowed_step_true (R Cq t x : ℚ) (a : String) (hx1 : 1 ≤ x)
    (hxc : x ≤ Cq) :
    RateLimiter.allowed ⟨R, Cq, [(a, (x, t))]⟩ a t
      = (true, ⟨R, Cq, [(a, (x - 1, t))]⟩) := by
  unfold RateLimiter.allowed
  simp only [lookupA, eq_self_iff_true, if_true, Option.getD_some]
  rw [sub_self, zero_mul, add_zero, min_eq_right hxc, if_pos hx1]
  simp [setA]

theorem callsAt_replicate (a : String) (R Cq t : ℚ) : ∀ (n : Nat) (x : ℚ),
    (n : ℚ) ≤ x → x ≤ Cq →
    callsAt ⟨R, Cq, [(a, (x, t))]⟩ a t n
      = (List.replicate n true, ⟨R, Cq, [(a, (x - n, t))]⟩) := by
  intro n
  induction n with
  | zero =>
    intro x _ _
    simp [callsAt]
  | succ m ih =>
    intro x hx hxc
    have hcast : ((m : ℚ) + 1) ≤ x := by push_cast at hx; linarith
    have hx1 : (1 : ℚ) ≤ x := by
      have : (0 : ℚ) ≤ (m : ℚ) := Nat.cast_nonneg m
      linarith
    simp only [callsAt]
    rw [allowed_step_true R Cq t x a hx1 hxc]
    rw [ih (x - 1) (by linarith) (by linarith)]
    dsimp only
    have harith : x - 1 - (m : ℚ) = x - ((m + 1 : Nat) : ℚ) := by
      push_cast
      ring
    rw [harith]
    simp [List.replicate_succ]

theorem callsAt_add (a : String) (t : ℚ) : ∀ (m n : Nat) (rl : RateLimiter),
    callsAt rl a t (m + n)
      = ((callsAt rl a t m).1 ++ (callsAt (callsAt rl a t m).2 a t n).1,
         (callsAt (callsAt rl a t m).2 a t n).2) := by
  intro m
  induction m with
  | zero => intro n rl; simp [callsAt]
  | succ k ih =>
    intro n rl
    rw [Nat.succ_add]
    simp only [callsAt]
    rcases h : rl.allowed a t with ⟨b, rl1⟩
    simp only [ih n rl1]
    rfl

/-- C9: starting from a fresh bucket with capacity C and rate R, C
back-to-back calls at one instant all return true, the next returns false
leaving the bucket at exactly 0 tokens (the denied call consumed
nothing), and after waiting exactly 1/R seconds exactly one further call
returns true while the one after it returns false. -/
theorem rate_limiter_token_bucket (C : Nat) (R t : ℚ) (a : String)
    (hC : 1 ≤ C) (hR : 0 < R) :
    (callsAt ⟨R, (C : ℚ), []⟩ a t (C + 1)).1 = List.replicate C true ++ [false]
    ∧ lookupA (callsAt ⟨R, (C : ℚ), []⟩ a t (C + 1)).2.buckets a = some (0, t)
    ∧ ((callsAt ⟨R, (C : ℚ), []⟩ a t (C + 1)).2.allowed a (t + 1 / R)).1 = true
    ∧ (((callsAt ⟨R, (C : ℚ), []⟩ a t (C + 1)).2.allowed a (t + 1 / R)).2.allowed
        a (t + 1 / R)).1 = false := by
  obtain ⟨m, rfl⟩ : ∃ m, C = m + 1 := ⟨C - 1, by omega⟩
  have hCq1 : (1 : ℚ) ≤ ((m + 1 : Nat) : ℚ) := by
    push_cast
    have : (0 : ℚ) ≤ (m : ℚ) := Nat.cast_nonneg m
    linarith
  have hCq0 : (0 : ℚ) ≤ ((m + 1 : Nat) : ℚ) := by linarith
  -- the first call, from the not-yet-existing bucket
  have hfirst : RateLimiter.allowed ⟨R, ((m + 1 : Nat) : ℚ), []⟩ a t
      = (true, ⟨R, ((m + 1 : Nat) : ℚ), [(a, (((m + 1 : Nat) : ℚ) - 1, t))]⟩) := by
    unfold RateLimiter.allowed
    simp only [lookupA, Option.getD_none]
    rw [sub_self, zero_mul, add_zero, min_self, if_pos hCq1]
    simp [setA]
  -- the m subsequent admitted calls
  have hmid := callsAt_replicate a R ((m + 1 : Nat) : ℚ) t m
    (((m + 1 : Nat) : ℚ) - 1) (by push_cast; linarith) (by linarith)
  have hzero : ((m + 1 : Nat) : ℚ) - 1 - (m : ℚ) = 0 := by push_cast; ring
  rw [hzero] at hmid
  -- the denied (C+1)-th call
  have hdenied : RateLimiter.allowed ⟨R, ((m + 1 : Nat) : ℚ), [(a, (0, t))]⟩ a t
      = (false, ⟨R, ((m + 1 : Nat) : ℚ), [(a, (0, t))]⟩) := by
    unfold RateLimiter.allowed
    simp only [lookupA, eq_self_iff_true, if_true, Option.getD_some]
    rw [sub_self, zero_mul, add_zero, min_eq_right hCq0, if_neg (by norm_num)]
    simp [setA]
  -- assemble the C+1 calls
  have h1 : callsAt ⟨R, ((m + 1 : Nat) : ℚ), []⟩ a t 1
      = ([true], ⟨R, ((m + 1 : Nat) : ℚ), [(a, (((m + 1 : Nat) : ℚ) - 1, t))]⟩) := by
    simp only [callsAt]
    rw [hfirst]
  have h2 : callsAt ⟨R, ((m + 1 : Nat) : ℚ), [(a, (0, t))]⟩ a t 1
      = ([false], ⟨R, ((m + 1 : Nat) : ℚ), [(a, (0, t))]⟩) := by
    simp only [callsAt]
    rw [hdenied]
  have hrun : callsAt ⟨R, ((m + 1 : Nat) : ℚ), []⟩ a t (m + 1 + 1)
      = (List.replicate (m + 1) true ++ [false],
         ⟨R, ((m + 1 : Nat) : ℚ), [(a, (0, t))]⟩) := by
    rw [show m + 1 + 1 = 1 + (m + 1) from by omega]
    rw [callsAt_add a t 1 (m + 1)]
    rw [h1]
    dsimp only
    rw [callsAt_add a t m 1]
    rw [hmid]
    dsimp only
    rw [h2]
    simp [List.replicate_succ]
  -- the post-wait refill admits exactly one call
  have hrefill : RateLimiter.allowed ⟨R, ((m + 1 : Nat) : ℚ), [(a, (0, t))]⟩ a
      (t + 1 / R)
      = (true, ⟨R, ((m + 1 : Nat) : ℚ), [(a, (0, t + 1 / R))]⟩) := by
    unfold RateLimiter.allowed
    simp only [lookupA, eq_self_iff_true, if_true, Option.getD_some]
    rw [show t + 1 / R - t = 1 / R from by ring, zero_add,
      one_div_mul_cancel (ne_of_gt hR), min_eq_right hCq1, if_pos le_rfl]
    simp [setA]
  have hsecond : RateLimiter.allowed
      ⟨R, ((m + 1 : Nat) : ℚ), [(a, (0, t + 1 / R))]⟩ a (t + 1 / R)
      = (false, ⟨R, ((m + 1 : Nat) : ℚ), [(a, (0, t + 1 / R))]⟩) := by
    unfold RateLimiter.allowed
    simp only [lookupA, eq_self_iff_true, if_true, Option.getD_some]
    rw [sub_self, zero_mul, add_zero, min_eq_right hCq0, if_neg (by norm_num)]
    simp [setA]
  rw [hrun]
  refine ⟨rfl, by simp [lookupA], ?_, ?_⟩
  · rw [hrefill]
  · rw [hrefill, hsecond]

/-- Witness for C9 with capacity 1 and rate 1. -/
theorem rate_limiter_token_bucket_witness :
    (callsAt ⟨1, ((1 : Nat) : ℚ), []⟩ "A" 0 (1 + 1)).1
      = List.replicate 1 true ++ [false]
    ∧ ((callsAt ⟨1, ((1 : Nat) : ℚ), []⟩ "A" 0 (1 + 1)).2.allowed "A"
        (0 + 1 / 1)).1 = true :=
  ⟨(rate_limiter_token_bucket 1 1 0 "A" le_rfl zero_lt_one).1,
   (rate_limiter_token_bucket 1 1 0 "A" le_rfl zero_lt_one).2.2.1⟩

/-! ## Decimal printing and parsing lemmas (C8) -/

theorem digitChar_props (d : Nat) (hd : d < 10) :
    (digitChar d).isWhitespace = false ∧ digitChar d ≠ dquote ∧
      digitChar d ≠ squote ∧ digitChar d ≠ '-' := by
  interval_cases d <;> exact ⟨by decide, by decide, by decide, by decide⟩

theorem natToDigitsAux_fuel_eq (n : Nat) :
    ∀ f, n < f → natToDigitsAux f n = natToStr n := by
  induction n using Nat.strong_induction_on with
  | _ n ih =>
    intro f hf
    match f, hf with
    | f2 + 1, _ =>
      unfold natToStr
      simp only [natToDigitsAux]
      by_cases h10 : n < 10
      · simp [h10]
      · simp only [h10, if_false]
        have hdiv : n / 10 < n := Nat.div_lt_self (by omega) (by omega)
        congr 1
        rw [ih (n / 10) hdiv f2 (by omega), ih (n / 10) hdiv n (by omega)]

theorem natToStr_eq (n : Nat) :
    natToStr n = if n < 10 then [digitChar n]
      else natToStr (n / 10) ++ [digitChar (n % 10)] := by
  conv_lhs => unfold natToStr
  simp only [natToDigitsAux]
  by_cases h10 : n < 10
  · simp [h10]
  · simp only [h10, if_false]
    congr 1
    exact natToDigitsAux_fuel_eq (n / 10) n (Nat.div_lt_self (by omega) (by omega))

theorem natToStr_digits (n : Nat) :
    ∀ c ∈ natToStr n, ∃ d, d < 10 ∧ c = digitChar d := by
  induction n using Nat.strong_induction_on with
  | _ n ih =>
    intro c hc
    rw [natToStr_eq] at hc
    by_cases h10 : n < 10
    · rw [if_pos h10] at hc
      simp only [List.mem_singleton] at hc
      exact ⟨n, h10, hc⟩
    · rw [if_neg h10] at hc
      rcases List.mem_append.mp hc with h | h
      · exact ih (n / 10) (Nat.div_lt_self (by omega) (by omega)) c h
      · simp only [List.mem_singleton] at h
        exact ⟨n % 10, Nat.mod_lt n (by omega), h⟩

theorem natToStr_ne_nil (n : Nat) : natToStr n ≠ [] := by
  rw [natToStr_eq]
  by_cases h10 : n < 10
  · rw [if_pos h10]
    simp
  · rw [if_neg h10]
    simp

theorem parseNatAux_append (xs : List Char) : ∀ (ys : List Char) (acc : Nat),
    parseNatAux (xs ++ ys) acc
      = (parseNatAux xs acc).bind (fun a => parseNatAux ys a) := by
  induction xs with
  | nil => intro ys acc; rfl
  | cons c cs ih =>
    intro ys acc
    simp only [List.cons_append, parseNatAux]
    cases h : parseDigit c with
    | some d => simp [h, ih]
    | none => simp [h]

theorem parseDigit_digitChar (d : Nat) (hd : d < 10) :
    parseDigit (digitChar d) = some d := by
  interval_cases d <;> decide

theorem parseNatAux_natToStr (n : Nat) : parseNatAux (natToStr n) 0 = some n := by
  induction n using Nat.strong_induction_on with
  | _ n ih =>
    rw [natToStr_eq]
    by_cases h10 : n < 10
    · rw [if_pos h10]
      simp [parseNatAux, parseDigit_digitChar n h10]
    · rw [if_neg h10]
      rw [parseNatAux_append]
      rw [ih (n / 10) (Nat.div_lt_self (by omega) (by omega))]
      simp [parseNatAux, parseDigit_digitChar (n % 10) (Nat.mod_lt n (by omega))]
      omega

theorem parseNatTok_natToStr (n : Nat) : parseNatTok (natToStr n) = some n := by
  cases h : natToStr n with
  | nil => exact absurd h (natToStr_ne_nil n)
  | cons c cs =>
    have : parseNatTok (c :: cs) = parseNatAux (c :: cs) 0 := rfl
    rw [this, ← h]
    exact parseNatAux_natToStr n

theorem natToStr_head_ne_minus (n : Nat) (c : Char) (cs : List Char)
    (h : natToStr n = c :: cs) : c ≠ '-' := by
  obtain ⟨d, hd, rfl⟩ := natToStr_digits n c (h ▸ List.mem_cons_self c cs)
  exact (digitChar_props d hd).2.2.2

theorem parseIntTok_natToStr (n : Nat) :
    parseIntTok (natToStr n) = some ((n : Nat) : Int) := by
  cases h : natToStr n with
  | nil => exact absurd h (natToStr_ne_nil n)
  | cons c cs =>
    rw [show parseIntTok (c :: cs)
        = if c = '-' then (parseNatTok cs).map (fun m => -(m : Int))
          else (parseNatTok (c :: cs)).map (fun m => (m : Int)) from rfl]
    rw [if_neg (natToStr_head_ne_minus n c cs h)]
    rw [← h, parseNatTok_natToStr n]
    rfl

/-! ## Tokenizing lemmas (C8) -/

theorem pySplitAux_no_ws (tok : List Char) : ∀ (rest acc : List Char),
    (∀ c ∈ tok, c.isWhitespace = false) →
    pySplitAux (tok ++ rest) acc = pySplitAux rest (tok.reverse ++ acc) := by
  induction tok with
  | nil => intro rest acc _; simp
  | cons c cs ih =>
    intro rest acc hws
    have hc : c.isWhitespace = false := hws c (List.mem_cons_self c cs)
    simp only [List.cons_append, pySplitAux, hc, Bool.false_eq_true, if_false]
    show pySplitAux (cs ++ rest) (c :: acc) = _
    rw [ih rest (c :: acc) (fun x hx => hws x (List.mem_cons_of_mem c hx))]
    simp

theorem pySplit_token (tok rest : List Char) (hne : tok ≠ [])
    (hws : ∀ c ∈ tok, c.isWhitespace = false) :
    pySplit (tok ++ ' ' :: rest) = tok :: pySplit rest := by
  unfold pySplit
  rw [pySplitAux_no_ws tok (' ' :: rest) [] hws]
  have h1 : (' ' : Char).isWhitespace = true := by decide
  simp only [pySplitAux, h1, if_true]
  have hacc : ¬(tok.reverse ++ [] = []) := by simp [hne]
  rw [if_neg hacc]
  simp

theorem natToStr_no_ws (n : Nat) : ∀ c ∈ natToStr n, c.isWhitespace = false := by
  intro c hc
  obtain ⟨d, hd, rfl⟩ := natToStr_digits n c hc
  exact (digitChar_props d hd).1

theorem stripQuotes_natToStr (n : Nat) :
    stripQuotes (natToStr n) = natToStr n := by
  cases h : natToStr n with
  | nil => rfl
  | cons c cs =>
    obtain ⟨d, hd, rfl⟩ := natToStr_digits n c (h ▸ List.mem_cons_self c cs)
    rw [show stripQuotes (digitChar d :: cs)
        = if (digitChar d = dquote ∧ (digitChar d :: cs).getLast? = some dquote)
            ∨ (digitChar d = squote ∧ (digitChar d :: cs).getLast? = some squote)
          then ((digitChar d :: cs).drop 1).dropLast
          else digitChar d :: cs from rfl]
    rw [if_neg]
    rintro (⟨h1, -⟩ | ⟨h1, -⟩)
    · exact (digitChar_props d hd).2.1 h1
    · exact (digitChar_props d hd).2.2.1 h1

/-! ## The is_admin clause (C8) -/

theorem run_kernel_is_admin (r : Nat) (h : r &&& 4 = 4) :
    run_kernel (natToStr r ++ (" 4 \"&\" 4 \"=\"").data) = true := by
  have hdata : (" 4 \"&\" 4 \"=\"").data = ' ' :: ("4 \"&\" 4 \"=\"").data := by
    decide
  have hsplit : pySplit (natToStr r ++ (" 4 \"&\" 4 \"=\"").data)
      = natToStr r :: pySplit (("4 \"&\" 4 \"=\"").data) := by
    rw [hdata]
    exact pySplit_token _ _ (natToStr_ne_nil r) (natToStr_no_ws r)
  have htail : pySplit (("4 \"&\" 4 \"=\"").data)
      = [['4'], [dquote, '&', dquote], ['4'], [dquote, '=', dquote]] := by decide
  unfold run_kernel
  rw [hsplit, htail]
  simp only [List.map_cons, List.map_nil, stripQuotes_natToStr]
  have hs1 : stripQuotes ['4'] = ['4'] := by decide
  have hs2 : stripQuotes [dquote, '&', dquote] = ['&'] := by decide
  have hs3 : stripQuotes [dquote, '=', dquote] = ['='] := by decide
  rw [hs1, hs2, hs3]
  have e1 : applyTok (natToStr r) [] = some [(r : Int)] := by
    unfold applyTok
    rw [parseIntTok_natToStr r]
  have hstep1 : evalTokens (natToStr r :: [['4'], ['&'], ['4'], ['=']]) []
      = evalTokens [['4'], ['&'], ['4'], ['=']] [(r : Int)] := by
    simp only [evalTokens, e1]
  rw [hstep1]
  have hp4 : parseIntTok ['4'] = some (4 : Int) := by decide
  have e2 : applyTok ['4'] [(r : Int)] = some [(4 : Int), (r : Int)] := by
    unfold applyTok
    rw [hp4]
  have hstep2 : evalTokens [['4'], ['&'], ['4'], ['=']] [(r : Int)]
      = evalTokens [['&'], ['4'], ['=']] [(4 : Int), (r : Int)] := by
    simp only [evalTokens, e2]
  rw [hstep2]
  have hpamp : parseIntTok ['&'] = none := by decide
  have e3 : applyTok ['&'] [(4 : Int), (r : Int)]
      = some [Int.land (r : Int) (4 : Int)] := by
    unfold applyTok
    rw [hpamp]
    rfl
  have hland : Int.land (r : Int) (4 : Int) = (((r &&& 4 : Nat)) : Int) := rfl
  have hstep3 : evalTokens [['&'], ['4'], ['=']] [(4 : Int), (r : Int)]
      = evalTokens [['4'], ['=']] [(((4 : Nat)) : Int)] := by
    simp only [evalTokens, e3, hland, h]
  rw [hstep3]
  decide

/-- C8: for every role mask with the admin bit (value 4) set and every
action id the registry knows, evaluating the default StandardAccess
policy through verify_action yields trace is_admin = true and a decision
allowed = true, whatever the action. -/
theorem admin_always_allowed (r : Nat) (action_name : String) (aid : Nat)
    (now : ℚ) (hact : lookupA ACTIONS action_name = some aid)
    (hadmin : r &&& 4 = 4) :
    (verify_action run_kernel STANDARD_ACCESS_POLICY r action_name 0 [] now).1.allowed
      = true
    ∧ lookupA
        (verify_action run_kernel STANDARD_ACCESS_POLICY r action_name 0 [] now).1.trace
        "is_admin" = some true := by
  unfold verify_action
  rw [hact]
  simp only [List.foldl_nil]
  unfold Policy.evaluate
  unfold STANDARD_ACCESS_POLICY
  simp only []
  have hfmt1 : pyFormat [TItem.arg "role_mask", TItem.lit " 4 \"&\" 4 \"=\""]
      [("role_mask", strOfNat r), ("action_id", strOfNat aid)]
      = some (natToStr r ++ (" 4 \"&\" 4 \"=\"").data) := by
    simp [pyFormat, lookupA, strOfNat]
  have hclause1 :
      evalClauses run_kernel
        [("is_admin", [TItem.arg "role_mask", TItem.lit " 4 \"&\" 4 \"=\""]),
         ("is_safe_action",
          [TItem.arg "action_id", TItem.lit " 200 \"<\" ",
           TItem.arg "action_id", TItem.lit " 99 \">\" \"&\""])]
        [("role_mask", strOfNat r), ("action_id", strOfNat aid)]
      = (("is_admin", true) ::
          (evalClauses run_kernel
            [("is_safe_action",
              [TItem.arg "action_id", TItem.lit " 200 \"<\" ",
               TItem.arg "action_id", TItem.lit " 99 \">\" \"&\""])]
            (setA [("role_mask", strOfNat r), ("action_id", strOfNat aid)]
              "is_admin" "1")).1,
         (evalClauses run_kernel
            [("is_safe_action",
              [TItem.arg "action_id", TItem.lit " 200 \"<\" ",
               TItem.arg "action_id", TItem.lit " 99 \">\" \"&\""])]
            (setA [("role_mask", strOfNat r), ("action_id", strOfNat aid)]
              "is_admin" "1")).2) := by
    simp only [evalClauses, hfmt1, run_kernel_is_admin r hadmin, if_true]
  rw [hclause1]
  rcases hrest : (evalClauses run_kernel
      [("is_safe_action",
        [TItem.arg "action_id", TItem.lit " 200 \"<\" ",
         TItem.arg "action_id", TItem.lit " 99 \">\" \"&\""])]
      (setA [("role_mask", strOfNat r), ("action_id", strOfNat aid)]
        "is_admin" "1")) with ⟨tr2, ctx2⟩
  have hnames := evalClauses_names run_kernel
      [("is_safe_action",
        [TItem.arg "action_id", TItem.lit " 200 \"<\" ",
         TItem.arg "action_id", TItem.lit " 99 \">\" \"&\""])]
      (setA [("role_mask", strOfNat r), ("action_id", strOfNat aid)]
        "is_admin" "1")
  rw [hrest] at hnames
  simp only at hnames
  match tr2, hnames with
  | [(n2, b2)], hnames =>
    have hn2 : n2 = "is_safe_action" := by
      simpa using hnames
    subst hn2
    constructor
    · simp [List.any_cons]
    · simp [lookupA]

/-- Witness for C8 at a concrete admin role mask and registry action. -/
theorem admin_always_allowed_witness :
    lookupA ACTIONS "READ_FILE" = some 101
    ∧ (5 : Nat) &&& 4 = 4
    ∧ (verify_action run_kernel STANDARD_ACCESS_POLICY 5 "READ_FILE" 0 [] 0).1.allowed
        = true :=
  ⟨by decide, by decide,
   (admin_always_allowed 5 "READ_FILE" 101 0 (by decide) (by decide)).1⟩

/-- Witness for C10 amended at concrete inputs. -/
theorem evaluator_recovery_amended_witness :
    DaemonController.evaluate none [some ⟨true, WriteOutcome.ok "1"⟩]
      = ("1", some ⟨true, WriteOutcome.ok "1"⟩, [])
    ∧ DaemonController.evaluate (some ⟨true, WriteOutcome.exn⟩) []
      = ("0", some ⟨true, WriteOutcome.exn⟩, []) :=
  ⟨by
    have h := (evaluator_recovery_amended none [some ⟨true, WriteOutcome.ok "1"⟩]
      [] ⟨true, WriteOutcome.ok "1"⟩ ⟨true, WriteOutcome.ok "1"⟩ "1").1
      (Or.inl rfl)
    exact h.2 rfl,
   (evaluator_recovery_amended (some ⟨true, WriteOutcome.exn⟩) [] []
     ⟨true, WriteOutcome.exn⟩ ⟨true, WriteOutcome.exn⟩ "1").2.2.2 rfl rfl rfl⟩

end Talos
